import Mathlib

/-!
Verification of the VeerTapApp submission-booking backend.

The backend stores form submissions as rows of an Excel worksheet and
enforces a per-day booking cap.  We embed the worksheet as a `List
Submission`, unix-millisecond timestamps as `Nat`, and the calendar day of
a timestamp (the `YYYY-MM-DD` part of `toISOString`) as `t / msPerDay`.
Each service function from `src/backend/src/services` is translated into a
pure Lean function over that state.
-/

/-- Milliseconds in one calendar day. -/
def msPerDay : Nat := 86400000

/-- Calendar day index of a unix-millisecond timestamp; two timestamps get
the same `dayOf` exactly when `toISOString().split('T')[0]` agrees. -/
def dayOf (t : Nat) : Nat := t / msPerDay

/-- `maxBookingsPerDay` from `config/excel.config.js`. -/
def maxBookingsPerDay : Nat := 3

/-- `maxBackups` from `config/excel.config.js` (backup retention cap). -/
def maxBackups : Nat := 30

/-- One row of the `Submissions` worksheet, columns 1-10 in order
(`config/excel.config.js` column configuration).  `bookingDate` is `none`
when the cell is empty (the JS code stores `null`). -/
structure Submission where
  id : String
  submissionDate : Nat
  bookingDate : Option Nat
  name : String
  upiNumber : String
  whatsappNumber : String
  ayambilShalaName : String
  city : String
  status : String
  ipAddress : String
deriving DecidableEq, Repr

/-- Row predicate inside `getBookingCountForDate` (excel.service.js:426-438):
a row is counted for a day when its booking-date cell is non-empty, its
status is not `archived`, and the booking date falls on that day. -/
def countsOnDay (r : Submission) (day : Nat) : Bool :=
  match r.bookingDate with
  | some bd => r.status != "archived" && dayOf bd == day
  | none => false

/-- Core of `getBookingCountForDate` (excel.service.js:416-441), phrased on
a day index: number of non-archived rows booked on that day. -/
def bookingCountOnDay (rows : List Submission) (day : Nat) : Nat :=
  (rows.filter (fun r => countsOnDay r day)).length

/-- `getBookingCountForDate` (excel.service.js:416-441): the input date is
reduced to its calendar day (`toISOString().split('T')[0]`) and the rows
booked on that day are counted. -/
def getBookingCountForDate (rows : List Submission) (date : Nat) : Nat :=
  bookingCountOnDay rows (dayOf date)

/-- Return shape of `isDateAvailable` (excel.service.js:449-459). -/
structure Availability where
  available : Bool
  count : Nat
  maxBookings : Nat
  remaining : Int
deriving DecidableEq, Repr

/-- `isDateAvailable` on a day index: available iff the booking count is
below `maxBookingsPerDay` (excel.service.js:449-459). -/
def availabilityOnDay (rows : List Submission) (day : Nat) : Availability :=
  let count := bookingCountOnDay rows day
  ⟨decide (count < maxBookingsPerDay), count, maxBookingsPerDay,
    (maxBookingsPerDay : Int) - (count : Int)⟩

/-- `isDateAvailable` (excel.service.js:449-459). -/
def isDateAvailable (rows : List Submission) (date : Nat) : Availability :=
  availabilityOnDay rows (dayOf date)

/-- Return shape of `getNextAvailableDate` (excel.service.js:479-483);
`date` is the day index of the returned ISO date string. -/
structure NextAvailable where
  date : Nat
  count : Nat
  remaining : Int
deriving DecidableEq, Repr

/-- Loop of `getNextAvailableDate` (excel.service.js:472-485): scan
day-by-day starting at `day`; `remaining` counts the iterations left
(`maxDaysToSearch - i`).  Returns the first available day, else `none`. -/
def nextAvailLoop (rows : List Submission) (day : Nat) : Nat → Option NextAvailable
  | 0 => none
  | remaining + 1 =>
    let a := availabilityOnDay rows day
    if a.available then some ⟨day, a.count, a.remaining⟩
    else nextAvailLoop rows (day + 1) remaining

/-- `getNextAvailableDate` (excel.service.js:468-488): the search starts at
the midnight of `startDate` (`setHours(0,0,0,0)`), i.e. at its day index,
and scans at most `maxDaysToSearch` days (the JS default, 90, is passed
explicitly by every call site of the embedding). -/
def getNextAvailableDate (rows : List Submission) (startDate : Nat)
    (maxDaysToSearch : Nat) : Option NextAvailable :=
  nextAvailLoop rows (dayOf startDate) maxDaysToSearch

/-- The three return shapes of `validateBookingDate`
(excel.service.js:496-532). -/
inductive ValidationResult where
  | invalidPast : ValidationResult
  | invalidFull (currentCount : Nat) (nextAvailableDate : Option NextAvailable) : ValidationResult
  | valid (count : Nat) (remaining : Int) : ValidationResult
deriving DecidableEq, Repr

/-- `validateBookingDate` (excel.service.js:496-532): reject past dates
(midnight-to-midnight comparison), then check availability; when the day is
full, also report the next available date. -/
def validateBookingDate (rows : List Submission) (now bookingDate : Nat) : ValidationResult :=
  if dayOf bookingDate * msPerDay < dayOf now * msPerDay then
    .invalidPast
  else
    let availability := isDateAvailable rows bookingDate
    if availability.available then
      .valid availability.count availability.remaining
    else
      .invalidFull availability.count
        (getNextAvailableDate rows (dayOf bookingDate * msPerDay) 90)

/-- Request body fields used by `addSubmission` (excel.service.js:78-89);
`bookingDate` is `none` when the request has no booking date. -/
structure RequestData where
  bookingDate : Option Nat
  name : String
  upiNumber : String
  whatsappNumber : String
  ayambilShalaName : String
  city : String
  ipAddress : String
deriving DecidableEq, Repr

/-- `addSubmission` (excel.service.js:71-125): append one row with a fresh
id, `submissionDate = new Date()`, status `pending`; returns the new
worksheet and the created row.  The generated id and the current time are
explicit inputs of the embedding. -/
def addSubmission (rows : List Submission) (id : String) (now : Nat)
    (data : RequestData) : List Submission × Submission :=
  let submissionData : Submission :=
    { id := id
      submissionDate := now
      bookingDate := data.bookingDate
      name := data.name
      upiNumber := data.upiNumber
      whatsappNumber := data.whatsappNumber
      ayambilShalaName := data.ayambilShalaName
      city := data.city
      status := "pending"
      ipAddress := data.ipAddress }
  (rows ++ [submissionData], submissionData)

/-- `createSubmission` (submission.controller.js:9-57): when the request
carries a booking date it is validated first and a failed validation is
answered with HTTP 400 before anything is persisted; otherwise the row is
added through `addSubmission`. -/
def createSubmission (rows : List Submission) (now : Nat) (id : String)
    (data : RequestData) : Except ValidationResult (List Submission × Submission) :=
  match data.bookingDate with
  | some bd =>
    match validateBookingDate rows now bd with
    | .valid _ _ => .ok (addSubmission rows id now data)
    | v => .error v
  | none => .ok (addSubmission rows id now data)

/-- One request admitted or rejected through the submission-creation path:
the wall-clock time, the freshly generated id, and the request body. -/
structure CreateStep where
  now : Nat
  id : String
  data : RequestData
deriving DecidableEq, Repr

/-- Run a sequence of requests through `createSubmission`; rejected
requests leave the worksheet unchanged. -/
def runCreateSubmissions (rows : List Submission) : List CreateStep → List Submission
  | [] => rows
  | s :: rest =>
    match createSubmission rows s.now s.id s.data with
    | .ok (rows', _) => runCreateSubmissions rows' rest
    | .error _ => runCreateSubmissions rows rest

/-! ### Helper lemmas: booking counts -/

/-- Appending one row changes a day's booking count by one exactly when the
new row counts for that day. -/
theorem bookingCountOnDay_append (rows : List Submission) (s : Submission) (d : Nat) :
    bookingCountOnDay (rows ++ [s]) d =
      bookingCountOnDay rows d + (if countsOnDay s d then 1 else 0) := by
  by_cases h : countsOnDay s d <;>
    simp [bookingCountOnDay, List.filter_append, h]

/-- A `valid` verdict of `validateBookingDate` certifies that the requested
day is strictly below the cap. -/
theorem validateBookingDate_valid_count (rows : List Submission) (now bd : Nat)
    (c : Nat) (rem : Int) (h : validateBookingDate rows now bd = .valid c rem) :
    bookingCountOnDay rows (dayOf bd) < maxBookingsPerDay := by
  unfold validateBookingDate at h
  split at h
  · cases h
  · dsimp only at h
    split at h
    · rename_i hav
      simpa [isDateAvailable, availabilityOnDay] using hav
    · cases h

/-- Inversion of a successful `createSubmission`: the worksheet grew by the
returned row, the row carries the request's booking date with status
`pending`, and when a booking date was present its day was under the cap. -/
theorem createSubmission_ok_inv (rows : List Submission) (now : Nat) (id : String)
    (data : RequestData) (rows' : List Submission) (s : Submission)
    (hok : createSubmission rows now id data = .ok (rows', s)) :
    rows' = rows ++ [s] ∧ s.bookingDate = data.bookingDate ∧ s.status = "pending" ∧
      ∀ bd, data.bookingDate = some bd →
        bookingCountOnDay rows (dayOf bd) < maxBookingsPerDay := by
  cases hbd : data.bookingDate with
  | none =>
    simp only [createSubmission, hbd, addSubmission, Except.ok.injEq, Prod.mk.injEq] at hok
    obtain ⟨hrows, hs⟩ := hok
    subst hs
    subst hrows
    exact ⟨rfl, rfl, rfl, fun bd hc => nomatch hc⟩
  | some bd =>
    simp only [createSubmission, hbd, addSubmission] at hok
    cases hv : validateBookingDate rows now bd with
    | invalidPast =>
      simp only [hv] at hok
      exact Except.noConfusion hok
    | invalidFull c n =>
      simp only [hv] at hok
      exact Except.noConfusion hok
    | valid c rem =>
      simp only [hv, Except.ok.injEq, Prod.mk.injEq] at hok
      obtain ⟨hrows, hs⟩ := hok
      subst hs
      subst hrows
      refine ⟨rfl, rfl, rfl, fun bd' hc => ?_⟩
      injection hc with hc
      subst hc
      exact validateBookingDate_valid_count rows now bd c rem hv

/-- One admitted `createSubmission` step keeps every day at or below the
cap. -/
theorem createSubmission_ok_preserves (rows : List Submission) (now : Nat) (id : String)
    (data : RequestData) (rows' : List Submission) (s : Submission)
    (hok : createSubmission rows now id data = .ok (rows', s))
    (h : ∀ d, bookingCountOnDay rows d ≤ maxBookingsPerDay) (d : Nat) :
    bookingCountOnDay rows' d ≤ maxBookingsPerDay := by
  obtain ⟨hrw, hbd, hst, hcnt⟩ := createSubmission_ok_inv rows now id data rows' s hok
  subst hrw
  rw [bookingCountOnDay_append]
  by_cases hc : countsOnDay s d
  · rw [if_pos hc]
    cases hbds : s.bookingDate with
    | none =>
      simp only [countsOnDay, hbds] at hc
      exact Bool.noConfusion hc
    | some bd =>
      simp only [countsOnDay, hbds, Bool.and_eq_true, bne_iff_ne, beq_iff_eq] at hc
      have hday : dayOf bd = d := hc.2
      subst hday
      have hlt := hcnt bd (by rw [← hbd, hbds])
      omega
  · rw [if_neg hc]
    have := h d
    omega

/-- The capacity invariant is preserved along any sequence of requests run
through the submission-creation path. -/
theorem runCreateSubmissions_inv (steps : List CreateStep) :
    ∀ rows : List Submission, (∀ d, bookingCountOnDay rows d ≤ maxBookingsPerDay) →
      ∀ d, bookingCountOnDay (runCreateSubmissions rows steps) d ≤ maxBookingsPerDay := by
  induction steps with
  | nil => intro rows h d; exact h d
  | cons st rest ih =>
    intro rows h d
    rw [runCreateSubmissions]
    cases hc : createSubmission rows st.now st.id st.data with
    | ok p =>
      obtain ⟨rows', srow⟩ := p
      exact ih rows' (createSubmission_ok_preserves rows st.now st.id st.data rows' srow hc h) d
    | error v => exact ih rows h d

/-- A request whose booking day is already at the cap is rejected: the
controller answers with a validation error and no row is persisted. -/
theorem createSubmission_full_rejected (rows : List Submission) (now : Nat) (id : String)
    (data : RequestData) (bd : Nat) (hbd : data.bookingDate = some bd)
    (hfull : maxBookingsPerDay ≤ bookingCountOnDay rows (dayOf bd)) :
    ∃ v, createSubmission rows now id data = .error v := by
  simp only [createSubmission, hbd]
  cases hv : validateBookingDate rows now bd with
  | valid c rem =>
    exact absurd (validateBookingDate_valid_count rows now bd c rem hv) (by omega)
  | invalidPast => exact ⟨_, rfl⟩
  | invalidFull c n => exact ⟨_, rfl⟩

/-- C1: for every date d, after any sequence of submissions admitted
through the submission-creation path, the number of live records with
status other than `archived` whose booking date falls on day d never
exceeds `maxBookingsPerDay`; a submission whose booking date would exceed
the cap is rejected before its row is persisted. -/
theorem capacity_invariant (rows : List Submission) (steps : List CreateStep)
    (h : ∀ d, bookingCountOnDay rows d ≤ maxBookingsPerDay) :
    (∀ d, bookingCountOnDay (runCreateSubmissions rows steps) d ≤ maxBookingsPerDay) ∧
    (∀ now id data bd, data.bookingDate = some bd →
      maxBookingsPerDay ≤ bookingCountOnDay rows (dayOf bd) →
      ∃ v, createSubmission rows now id data = .error v) :=
  ⟨runCreateSubmissions_inv steps rows h,
   fun now id data bd hbd hfull => createSubmission_full_rejected rows now id data bd hbd hfull⟩

/-- Four same-day requests: the first three are admitted, the fourth is
rejected by the capacity check. -/
def capacityDemoSteps : List CreateStep :=
  [⟨0, "VRT-0-AAAAAAAA", ⟨some 0, "n", "u", "w", "a", "c", "ip"⟩⟩,
   ⟨1, "VRT-1-BBBBBBBB", ⟨some 1, "n", "u", "w", "a", "c", "ip"⟩⟩,
   ⟨2, "VRT-2-CCCCCCCC", ⟨some 2, "n", "u", "w", "a", "c", "ip"⟩⟩,
   ⟨3, "VRT-3-DDDDDDDD", ⟨some 3, "n", "u", "w", "a", "c", "ip"⟩⟩]

/-- Witness for C1 at a concrete run: starting from the empty store, four
same-day requests leave day 0 at the cap, not above it. -/
theorem capacity_invariant_witness :
    bookingCountOnDay (runCreateSubmissions [] capacityDemoSteps) 0 ≤ maxBookingsPerDay :=
  (capacity_invariant [] capacityDemoSteps (fun _ => Nat.zero_le _)).1 0

/-! ### C5: next-available-date search -/

/-- Loop invariant of the next-available search: a found day is the first
available one at or after the scan position, and an exhausted scan means
every day in the window is full. -/
theorem nextAvailLoop_spec (rows : List Submission) :
    ∀ (fuel day : Nat),
      (∀ info, nextAvailLoop rows day fuel = some info →
        day ≤ info.date ∧ info.date < day + fuel ∧
        (availabilityOnDay rows info.date).available = true ∧
        ∀ d, day ≤ d → d < info.date → (availabilityOnDay rows d).available = false) ∧
      (nextAvailLoop rows day fuel = none →
        ∀ d, day ≤ d → d < day + fuel → (availabilityOnDay rows d).available = false) := by
  intro fuel
  induction fuel with
  | zero =>
    intro day
    constructor
    · intro info h
      simp only [nextAvailLoop] at h
      exact Option.noConfusion h
    · intro _ d h1 h2
      omega
  | succ n ih =>
    intro day
    constructor
    · intro info h
      simp only [nextAvailLoop] at h
      split at h
      · rename_i hav
        injection h with h
        subst h
        dsimp only
        exact ⟨Nat.le_refl _, by omega, hav, fun d h1 h2 => absurd h1 (by omega)⟩
      · rename_i hav
        have hfalse : (availabilityOnDay rows day).available = false :=
          eq_false_of_ne_true hav
        obtain ⟨h1, h2, h3, h4⟩ := (ih (day + 1)).1 info h
        refine ⟨by omega, by omega, h3, fun d hd1 hd2 => ?_⟩
        rcases Nat.eq_or_lt_of_le hd1 with he | hl
        · rw [← he]
          exact hfalse
        · exact h4 d hl hd2
    · intro h d hd1 hd2
      simp only [nextAvailLoop] at h
      split at h
      · rename_i hav
        exact nomatch h
      · rename_i hav
        have hfalse : (availabilityOnDay rows day).available = false :=
          eq_false_of_ne_true hav
        rcases Nat.eq_or_lt_of_le hd1 with he | hl
        · rw [← he]
          exact hfalse
        · exact (ih (day + 1)).2 h d hl (by omega)

/-- C5: the next-available search either returns the first available day at
or after the start day — every earlier day in between being full — with the
result inside the search window, or returns none exactly when all
`maxDaysToSearch` days starting at the start day are full. -/
theorem getNextAvailableDate_spec (rows : List Submission) (startDate maxDaysToSearch : Nat) :
    (∀ info, getNextAvailableDate rows startDate maxDaysToSearch = some info →
      dayOf startDate ≤ info.date ∧ info.date < dayOf startDate + maxDaysToSearch ∧
      (availabilityOnDay rows info.date).available = true ∧
      ∀ d, dayOf startDate ≤ d → d < info.date →
        (availabilityOnDay rows d).available = false) ∧
    (getNextAvailableDate rows startDate maxDaysToSearch = none →
      ∀ d, dayOf startDate ≤ d → d < dayOf startDate + maxDaysToSearch →
        (availabilityOnDay rows d).available = false) :=
  nextAvailLoop_spec rows maxDaysToSearch (dayOf startDate)

/-- Witness for C5: on the empty store the search starting at time 0 finds
day 0 itself, available with count 0. -/
theorem getNextAvailableDate_spec_witness :
    dayOf 0 ≤ (⟨0, 0, 3⟩ : NextAvailable).date ∧
    (availabilityOnDay [] (⟨0, 0, 3⟩ : NextAvailable).date).available = true := by
  have h := (getNextAvailableDate_spec [] 0 90).1 ⟨0, 0, 3⟩ (by decide)
  exact ⟨h.1, h.2.2.1⟩

/-! ### C2: submission-id generation (utils/helpers.js) -/

/-- Character of a single decimal digit. -/
def decDigitChar (n : Nat) : Char := Char.ofNat (48 + n)

/-- Fuel-driven base-10 printer: the digit characters of `n`, most
significant first, prepended to `acc`.  This is the decimal rendering that
the template literal interpolation of a JS number performs. -/
def decCharsAux : Nat → Nat → List Char → List Char
  | 0, _, acc => acc
  | fuel + 1, n, acc =>
    if n < 10 then decDigitChar n :: acc
    else decCharsAux fuel (n / 10) (decDigitChar (n % 10) :: acc)

/-- Decimal digit characters of `n` (the fuel `n + 1` always suffices). -/
def decChars (n : Nat) : List Char := decCharsAux (n + 1) n []

/-- Base-10 reading of a digit-character list, the inverse of `decChars`. -/
def decVal (cs : List Char) : Nat :=
  cs.foldl (fun a c => a * 10 + (c.toNat - 48)) 0

/-- Uppercase hexadecimal character of a value below sixteen (after JS
`toString('hex').toUpperCase()`). -/
def hexDigitChar (n : Nat) : Char :=
  if n < 10 then Char.ofNat (48 + n) else Char.ofNat (55 + n)

/-- The eight characters of `crypto.randomBytes(4).toString('hex').toUpperCase()`
(helpers.js:11), as the big-endian nibbles of the drawn 32-bit value. -/
def hex8Chars (r : Nat) : List Char :=
  [hexDigitChar (r / 268435456 % 16), hexDigitChar (r / 16777216 % 16),
   hexDigitChar (r / 1048576 % 16), hexDigitChar (r / 65536 % 16),
   hexDigitChar (r / 4096 % 16), hexDigitChar (r / 256 % 16),
   hexDigitChar (r / 16 % 16), hexDigitChar (r % 16)]

/-- Base-16 value of a hex digit character, inverse of `hexDigitChar`. -/
def hexDigitVal (c : Char) : Nat :=
  if c.toNat < 58 then c.toNat - 48 else c.toNat - 55

/-- Base-16 reading of a hex-character list. -/
def hexVal (cs : List Char) : Nat :=
  cs.foldl (fun a c => a * 16 + hexDigitVal c) 0

/-- A character that can appear in the random part of an id: a decimal
digit or an uppercase A-F. -/
def isUpperHexDigit (c : Char) : Bool :=
  (48 ≤ c.toNat && c.toNat ≤ 57) || (65 ≤ c.toNat && c.toNat ≤ 70)

/-- `generateSubmissionId` (helpers.js:9-13): the template literal
`VRT-<timestamp>-<random>` with the millisecond timestamp in decimal and
the four random bytes in uppercase hex.  `Date.now()` and the random draw
are explicit inputs of the embedding. -/
def generateSubmissionId (timestampMs randomValue : Nat) : String :=
  "VRT-" ++ String.mk (decChars timestampMs) ++ "-" ++ String.mk (hex8Chars randomValue)

/-- The accumulator of the decimal printer is a suffix. -/
theorem decCharsAux_acc (fuel : Nat) : ∀ n acc, n < 10 ^ fuel →
    decCharsAux fuel n acc = decCharsAux fuel n [] ++ acc := by
  induction fuel with
  | zero =>
    intro n acc h
    simp [decCharsAux]
  | succ f ih =>
    intro n acc h
    by_cases h10 : n < 10
    · simp [decCharsAux, h10]
    · have hdiv : n / 10 < 10 ^ f := by
        have hn : n < 10 ^ f * 10 := by
          rw [← pow_succ]
          exact h
        exact (Nat.div_lt_iff_lt_mul (by norm_num)).mpr hn
      simp only [decCharsAux, if_neg h10]
      rw [ih (n / 10) (decDigitChar (n % 10) :: acc) hdiv,
        ih (n / 10) [decDigitChar (n % 10)] hdiv]
      simp

/-- Digit characters decode back to their digit. -/
theorem decDigitChar_toNat (m : Nat) (h : m < 10) : (decDigitChar m).toNat = 48 + m := by
  interval_cases m <;> decide

/-- Folding the base-10 reader over the printed digits of `n` recovers `n`
on top of the shifted accumulator. -/
theorem decCharsAux_foldl (fuel : Nat) : ∀ n a, n < 10 ^ fuel → 0 < fuel →
    List.foldl (fun x c => x * 10 + (c.toNat - 48)) a (decCharsAux fuel n []) =
      a * 10 ^ (decCharsAux fuel n []).length + n := by
  induction fuel with
  | zero =>
    intro n a _ hp
    exact absurd hp (by omega)
  | succ f ih =>
    intro n a h hp
    by_cases h10 : n < 10
    · simp only [decCharsAux, if_pos h10, List.foldl, List.length_cons, List.length_nil]
      rw [decDigitChar_toNat n h10, pow_one]
      omega
    · have hf : 0 < f := by
        rcases Nat.eq_zero_or_pos f with hf0 | hf0
        · subst hf0
          simp at h
          omega
        · exact hf0
      have hdiv : n / 10 < 10 ^ f := by
        have hn : n < 10 ^ f * 10 := by
          rw [← pow_succ]
          exact h
        exact (Nat.div_lt_iff_lt_mul (by norm_num)).mpr hn
      simp only [decCharsAux, if_neg h10]
      rw [decCharsAux_acc f (n / 10) [decDigitChar (n % 10)] hdiv]
      rw [List.foldl_append, List.length_append]
      rw [ih (n / 10) a hdiv hf]
      simp only [List.foldl, List.length_cons, List.length_nil]
      rw [decDigitChar_toNat (n % 10) (Nat.mod_lt _ (by norm_num))]
      rw [pow_succ]
      have : 48 + n % 10 - 48 = n % 10 := by omega
      rw [this]
      have hmod := Nat.div_add_mod n 10
      ring_nf
      omega

/-- Reading back the decimal rendering of `n` gives `n`. -/
theorem decVal_decChars (n : Nat) : decVal (decChars n) = n := by
  have hlt : n < 10 ^ (n + 1) := by
    calc n < 10 ^ n := Nat.lt_pow_self (by omega) n
    _ ≤ 10 ^ (n + 1) := Nat.pow_le_pow_right (by omega) (by omega)
  have := decCharsAux_foldl (n + 1) n 0 hlt (by omega)
  simpa [decVal, decChars] using this

/-- Hex digit characters decode back to their value. -/
theorem hexDigitVal_hexDigitChar (m : Nat) (h : m < 16) :
    hexDigitVal (hexDigitChar m) = m := by
  interval_cases m <;> decide

/-- Every character of the random part is a digit or uppercase A-F. -/
theorem isUpperHexDigit_hexDigitChar (m : Nat) (h : m < 16) :
    isUpperHexDigit (hexDigitChar m) = true := by
  interval_cases m <;> decide

/-- Reading back the eight hex characters of a 32-bit value gives the
value. -/
theorem hexVal_hex8Chars (r : Nat) (h : r < 4294967296) : hexVal (hex8Chars r) = r := by
  simp only [hexVal, hex8Chars, List.foldl]
  rw [hexDigitVal_hexDigitChar _ (Nat.mod_lt _ (by norm_num)),
    hexDigitVal_hexDigitChar _ (Nat.mod_lt _ (by norm_num)),
    hexDigitVal_hexDigitChar _ (Nat.mod_lt _ (by norm_num)),
    hexDigitVal_hexDigitChar _ (Nat.mod_lt _ (by norm_num)),
    hexDigitVal_hexDigitChar _ (Nat.mod_lt _ (by norm_num)),
    hexDigitVal_hexDigitChar _ (Nat.mod_lt _ (by norm_num)),
    hexDigitVal_hexDigitChar _ (Nat.mod_lt _ (by norm_num)),
    hexDigitVal_hexDigitChar _ (Nat.mod_lt _ (by norm_num))]
  omega

/-- The character list underlying a generated id. -/
theorem generateSubmissionId_data (t r : Nat) :
    (generateSubmissionId t r).data =
      'V' :: 'R' :: 'T' :: '-' :: (decChars t ++ '-' :: hex8Chars r) := by
  simp [generateSubmissionId, String.data_append]

/-- Two generated ids agree only when both the timestamp and the random
draw agree. -/
theorem generateSubmissionId_inj (t r t' r' : Nat)
    (hr : r < 4294967296) (hr' : r' < 4294967296)
    (h : generateSubmissionId t r = generateSubmissionId t' r') : t = t' ∧ r = r' := by
  have hd : (generateSubmissionId t r).data = (generateSubmissionId t' r').data := by rw [h]
  rw [generateSubmissionId_data, generateSubmissionId_data] at hd
  injection hd with h1 hd
  injection hd with h2 hd
  injection hd with h3 hd
  injection hd with h4 hd
  obtain ⟨hdec, hsuffix⟩ := List.append_inj' hd (by simp [hex8Chars])
  constructor
  · have := congrArg decVal hdec
    rwa [decVal_decChars, decVal_decChars] at this
  · injection hsuffix with h5 hhex
    have := congrArg hexVal hhex
    rwa [hexVal_hex8Chars r hr, hexVal_hex8Chars r' hr'] at this

/-- A sequence of `addSubmission` calls: each call's wall-clock millisecond,
drawn 32-bit random value, and request body.  The call passes the id
produced by `generateSubmissionId` into the worksheet append and returns it
(excel.service.js:77,120). -/
def runAddSubmissions (rows : List Submission) :
    List (Nat × Nat × RequestData) → List Submission × List String
  | [] => (rows, [])
  | c :: rest =>
    let res := addSubmission rows (generateSubmissionId c.1 c.2.1) c.1 c.2.2
    let next := runAddSubmissions res.1 rest
    (next.1, res.2.id :: next.2)

/-- The ids returned by a call sequence are the generated ids, in order. -/
theorem runAddSubmissions_ids (rows : List Submission)
    (calls : List (Nat × Nat × RequestData)) :
    (runAddSubmissions rows calls).2 =
      calls.map (fun c => generateSubmissionId c.1 c.2.1) := by
  induction calls generalizing rows with
  | nil => rfl
  | cons c rest ih => simp [runAddSubmissions, ih, addSubmission]

/-- C2 (amended): along any sequence of `addSubmission` calls in which no
two calls share both the millisecond timestamp and the drawn 32-bit random
value, the returned ids are pairwise distinct; and every returned id has
the format VRT-<decimal unix-ms>-<8 uppercase hex characters>, both parts
decoding back to the inputs. -/
theorem addSubmission_ids_spec (rows : List Submission)
    (calls : List (Nat × Nat × RequestData))
    (hr : ∀ c ∈ calls, c.2.1 < 4294967296)
    (hd : List.Pairwise (fun a b => a.1 ≠ b.1 ∨ a.2.1 ≠ b.2.1) calls) :
    List.Pairwise (fun a b => a ≠ b) (runAddSubmissions rows calls).2 ∧
    ∀ c ∈ calls,
      (generateSubmissionId c.1 c.2.1).data =
        'V' :: 'R' :: 'T' :: '-' :: (decChars c.1 ++ '-' :: hex8Chars c.2.1) ∧
      decVal (decChars c.1) = c.1 ∧
      hexVal (hex8Chars c.2.1) = c.2.1 ∧
      (hex8Chars c.2.1).length = 8 ∧
      ∀ ch ∈ hex8Chars c.2.1, isUpperHexDigit ch = true := by
  constructor
  · rw [runAddSubmissions_ids, List.pairwise_map]
    refine List.Pairwise.imp_of_mem ?_ hd
    intro a b ha hb hab heq
    obtain ⟨ht, hrr⟩ :=
      generateSubmissionId_inj a.1 a.2.1 b.1 b.2.1 (hr a ha) (hr b hb) heq
    cases hab with
    | inl hne => exact hne ht
    | inr hne => exact hne hrr
  · intro c hc
    refine ⟨generateSubmissionId_data _ _, decVal_decChars _,
      hexVal_hex8Chars _ (hr c hc), rfl, ?_⟩
    intro ch hch
    simp only [hex8Chars, List.mem_cons, List.not_mem_nil, or_false] at hch
    rcases hch with h|h|h|h|h|h|h|h <;>
      (subst h; exact isUpperHexDigit_hexDigitChar _ (Nat.mod_lt _ (by norm_num)))

/-- Two calls one millisecond apart with distinct random draws. -/
def c2DemoCalls : List (Nat × Nat × RequestData) :=
  [(0, 0, ⟨none, "n", "u", "w", "a", "c", "ip"⟩),
   (0, 1, ⟨none, "n", "u", "w", "a", "c", "ip"⟩)]

/-- Witness for C2 at a concrete call sequence. -/
theorem addSubmission_ids_spec_witness :
    List.Pairwise (fun a b => a ≠ b) (runAddSubmissions [] c2DemoCalls).2 :=
  (addSubmission_ids_spec [] c2DemoCalls (by decide) (by decide)).1

/-- Two calls in the same millisecond drawing the same random bytes. -/
def c2DuplicateCalls : List (Nat × Nat × RequestData) :=
  [(5, 7, ⟨none, "n", "u", "w", "a", "c", "ip"⟩),
   (5, 7, ⟨none, "n", "u", "w", "a", "c", "ip"⟩)]

/-- C2 counterexample: two `addSubmission` calls that fall in the same
millisecond and draw the same four random bytes return the same id, so the
ids of a call sequence are not unconditionally pairwise distinct. -/
theorem addSubmission_ids_collision :
    ¬ List.Pairwise (fun a b : String => a ≠ b) (runAddSubmissions [] c2DuplicateCalls).2 := by
  intro h
  have he : (runAddSubmissions [] c2DuplicateCalls).2 =
      [generateSubmissionId 5 7, generateSubmissionId 5 7] := rfl
  rw [he] at h
  exact (List.pairwise_cons.mp h).1 _ (List.mem_singleton.mpr rfl) rfl

/-! ### C3, C9: partial updates (excel.service.js updateSubmission) -/

/-- The partial-update payload of `updateSubmission`
(excel.service.js:192-240): each updatable field is absent (`none`) or
supplied.  A supplied string may be empty and a supplied date value may be
zero; both are JS-falsy and skipped by the `if (updates.x)` guards. -/
structure Updates where
  status : Option String
  bookingDate : Option Nat
  name : Option String
  upiNumber : Option String
  whatsappNumber : Option String
  ayambilShalaName : Option String
  city : Option String
deriving DecidableEq, Repr

/-- One guarded string-cell write `if (updates.x) cell = updates.x`: the
old value survives unless the update value is supplied and truthy
(non-empty). -/
def updStr (u : Option String) (old : String) : String :=
  match u with
  | some s => if s = "" then old else s
  | none => old

/-- The guarded booking-date write `if (updates.bookingDate) cell = new
Date(updates.bookingDate)`: a supplied zero value is falsy and skipped. -/
def updDate (u : Option Nat) (old : Option Nat) : Option Nat :=
  match u with
  | some n => if n = 0 then old else some n
  | none => old

/-- Whether every supplied field of the payload is JS-falsy. -/
def Updates.allFalsy (u : Updates) : Bool :=
  (u.status = none ∨ u.status = some "") ∧ (u.bookingDate = none ∨ u.bookingDate = some 0) ∧
    (u.name = none ∨ u.name = some "") ∧ (u.upiNumber = none ∨ u.upiNumber = some "") ∧
    (u.whatsappNumber = none ∨ u.whatsappNumber = some "") ∧
    (u.ayambilShalaName = none ∨ u.ayambilShalaName = some "") ∧
    (u.city = none ∨ u.city = some "")

/-- The per-row update block of `updateSubmission`
(excel.service.js:204-210): the seven guarded cell writes; `id` (cell 1),
`submissionDate` (cell 2) and `ipAddress` (cell 10) have no guard and are
never written. -/
def applyUpdates (u : Updates) (r : Submission) : Submission :=
  { r with
    status := updStr u.status r.status
    bookingDate := updDate u.bookingDate r.bookingDate
    name := updStr u.name r.name
    upiNumber := updStr u.upiNumber r.upiNumber
    whatsappNumber := updStr u.whatsappNumber r.whatsappNumber
    ayambilShalaName := updStr u.ayambilShalaName r.ayambilShalaName
    city := updStr u.city r.city }

/-- `updateSubmission` (excel.service.js:192-240): every row whose id cell
matches is updated in place, the returned snapshot is the last matching row
after its update, and when no row matches the service throws the error
`Submission not found`. -/
def updateSubmission (rows : List Submission) (id : String) (u : Updates) :
    Except String (List Submission × Submission) :=
  match (rows.filter (fun r => r.id == id)).getLast? with
  | some last =>
    .ok (rows.map (fun r => if r.id == id then applyUpdates u r else r), applyUpdates u last)
  | none => .error "Submission not found"

/-- C3 (amended): updateSubmission overwrites exactly the supplied truthy
fields of the matching row; fields not supplied — and always id,
submissionDate and ipAddress — keep their pre-update values, rows with a
different id are mapped to themselves, a matching id yields a success and
an absent id fails with the `Submission not found` error.  (Supplied but
falsy fields are skipped, see the C9 theorem.) -/
theorem updateSubmission_spec (rows : List Submission) (id : String) (u : Updates)
    (r : Submission) :
    ((applyUpdates u r).id = r.id ∧
     (applyUpdates u r).submissionDate = r.submissionDate ∧
     (applyUpdates u r).ipAddress = r.ipAddress ∧
     (u.status = none → (applyUpdates u r).status = r.status) ∧
     (u.bookingDate = none → (applyUpdates u r).bookingDate = r.bookingDate) ∧
     (u.name = none → (applyUpdates u r).name = r.name) ∧
     (u.upiNumber = none → (applyUpdates u r).upiNumber = r.upiNumber) ∧
     (u.whatsappNumber = none → (applyUpdates u r).whatsappNumber = r.whatsappNumber) ∧
     (u.ayambilShalaName = none → (applyUpdates u r).ayambilShalaName = r.ayambilShalaName) ∧
     (u.city = none → (applyUpdates u r).city = r.city)) ∧
    ((∀ s, u.status = some s → s ≠ "" → (applyUpdates u r).status = s) ∧
     (∀ n, u.bookingDate = some n → n ≠ 0 → (applyUpdates u r).bookingDate = some n) ∧
     (∀ s, u.name = some s → s ≠ "" → (applyUpdates u r).name = s) ∧
     (∀ s, u.upiNumber = some s → s ≠ "" → (applyUpdates u r).upiNumber = s) ∧
     (∀ s, u.whatsappNumber = some s → s ≠ "" → (applyUpdates u r).whatsappNumber = s) ∧
     (∀ s, u.ayambilShalaName = some s → s ≠ "" → (applyUpdates u r).ayambilShalaName = s) ∧
     (∀ s, u.city = some s → s ≠ "" → (applyUpdates u r).city = s)) ∧
    (∀ rows' last, updateSubmission rows id u = .ok (rows', last) →
      rows' = rows.map (fun x => if x.id == id then applyUpdates u x else x) ∧
      ∀ x ∈ rows, x.id ≠ id → x ∈ rows') ∧
    ((∀ x ∈ rows, x.id ≠ id) → updateSubmission rows id u = .error "Submission not found") ∧
    (∀ x ∈ rows, x.id = id → ∃ p, updateSubmission rows id u = .ok p) := by
  refine ⟨⟨rfl, rfl, rfl, ?_, ?_, ?_, ?_, ?_, ?_, ?_⟩, ⟨?_, ?_, ?_, ?_, ?_, ?_, ?_⟩, ?_, ?_, ?_⟩
  · intro h; simp [applyUpdates, updStr, h]
  · intro h; simp [applyUpdates, updDate, h]
  · intro h; simp [applyUpdates, updStr, h]
  · intro h; simp [applyUpdates, updStr, h]
  · intro h; simp [applyUpdates, updStr, h]
  · intro h; simp [applyUpdates, updStr, h]
  · intro h; simp [applyUpdates, updStr, h]
  · intro s hs hne; simp [applyUpdates, updStr, hs, hne]
  · intro n hn hne; simp [applyUpdates, updDate, hn, hne]
  · intro s hs hne; simp [applyUpdates, updStr, hs, hne]
  · intro s hs hne; simp [applyUpdates, updStr, hs, hne]
  · intro s hs hne; simp [applyUpdates, updStr, hs, hne]
  · intro s hs hne; simp [applyUpdates, updStr, hs, hne]
  · intro s hs hne; simp [applyUpdates, updStr, hs, hne]
  · intro rows' last h
    unfold updateSubmission at h
    cases hl : (rows.filter (fun x => x.id == id)).getLast? with
    | some l =>
      rw [hl] at h
      injection h with h
      injection h with h1 h2
      subst h1
      exact ⟨rfl, fun x hx hne => by
        refine List.mem_map.mpr ⟨x, hx, ?_⟩
        simp [hne]⟩
    | none =>
      rw [hl] at h
      exact Except.noConfusion h
  · intro h
    unfold updateSubmission
    have hfil : rows.filter (fun x => x.id == id) = [] := by
      refine List.filter_eq_nil_iff.mpr ?_
      intro x hx
      simp [h x hx]
    rw [hfil]
    rfl
  · intro x hx hid
    unfold updateSubmission
    cases hl : (rows.filter (fun r => r.id == id)).getLast? with
    | some l => exact ⟨_, rfl⟩
    | none =>
      have hmem : x ∈ rows.filter (fun r => r.id == id) :=
        List.mem_filter.mpr ⟨hx, by simp [hid]⟩
      cases hfil : rows.filter (fun r => r.id == id) with
      | nil => rw [hfil] at hmem; exact absurd hmem (List.not_mem_nil x)
      | cons a as => rw [hfil] at hl; simp [List.getLast?] at hl

/-- A concrete stored row used by the update counterexamples. -/
def c3Row : Submission :=
  ⟨"VRT-1-AAAAAAAA", 0, some 0, "Name", "up", "wa", "shala", "Amdavad", "pending", "1.2.3.4"⟩

/-- A payload that supplies only an empty city. -/
def c3EmptyCityUpdate : Updates := ⟨none, none, none, none, none, none, some ""⟩

/-- C3 counterexample: the payload supplies the field city with value "",
yet updateSubmission on the matching id leaves the row completely
unchanged — the supplied field is not overwritten with the supplied value,
refuting the claim over arbitrary partial-update payloads. -/
theorem updateSubmission_empty_value_not_written :
    updateSubmission [c3Row] "VRT-1-AAAAAAAA" c3EmptyCityUpdate = .ok ([c3Row], c3Row) ∧
    c3EmptyCityUpdate.city = some "" ∧ c3Row.city = "Amdavad" := by
  exact ⟨rfl, rfl, rfl⟩

/-- Witness for C3 (amended) at a concrete input: the not-found branch on a
store whose only row has a different id. -/
theorem updateSubmission_spec_witness :
    updateSubmission [c3Row] "VRT-missing" c3EmptyCityUpdate = .error "Submission not found" :=
  (updateSubmission_spec [c3Row] "VRT-missing" c3EmptyCityUpdate c3Row).2.2.2.1
    (fun x hx => by
      cases hx with
      | head => decide
      | tail _ h => exact absurd h (List.not_mem_nil x))

/-- An all-falsy payload leaves a row unchanged. -/
theorem applyUpdates_allFalsy (u : Updates) (r : Submission)
    (h : u.allFalsy = true) : applyUpdates u r = r := by
  simp only [Updates.allFalsy, decide_eq_true_eq] at h
  obtain ⟨h1, h2, h3, h4, h5, h6, h7⟩ := h
  cases r
  simp only [applyUpdates, updStr, updDate]
  rcases h1 with h1 | h1 <;> rcases h2 with h2 | h2 <;> rcases h3 with h3 | h3 <;>
    rcases h4 with h4 | h4 <;> rcases h5 with h5 | h5 <;> rcases h6 with h6 | h6 <;>
    rcases h7 with h7 | h7 <;>
    simp [h1, h2, h3, h4, h5, h6, h7]

/-- C9: in updateSubmission, any supplied field whose value is JS-falsy
(an empty string, or zero for the date cell) is ignored: the stored field
keeps its previous value, so an update can never clear a field to an empty
value; in particular an all-falsy payload applied to an existing id leaves
the whole store unchanged. -/
theorem updateSubmission_falsy_ignored (rows : List Submission) (id : String) (u : Updates)
    (r : Submission) :
    ((u.status = some "" → (applyUpdates u r).status = r.status) ∧
     (u.bookingDate = some 0 → (applyUpdates u r).bookingDate = r.bookingDate) ∧
     (u.name = some "" → (applyUpdates u r).name = r.name) ∧
     (u.upiNumber = some "" → (applyUpdates u r).upiNumber = r.upiNumber) ∧
     (u.whatsappNumber = some "" → (applyUpdates u r).whatsappNumber = r.whatsappNumber) ∧
     (u.ayambilShalaName = some "" → (applyUpdates u r).ayambilShalaName = r.ayambilShalaName) ∧
     (u.city = some "" → (applyUpdates u r).city = r.city)) ∧
    (u.allFalsy = true → ∀ p, updateSubmission rows id u = .ok p → p.1 = rows) := by
  constructor
  · refine ⟨?_, ?_, ?_, ?_, ?_, ?_, ?_⟩ <;>
      (intro h; simp [applyUpdates, updStr, updDate, h])
  · intro hfin p h
    unfold updateSubmission at h
    cases hl : (rows.filter (fun x => x.id == id)).getLast? with
    | some l =>
      rw [hl] at h
      injection h with h
      rw [← h]
      have hx : ∀ x : Submission, (if x.id == id then applyUpdates u x else x) = x := by
        intro x
        rw [applyUpdates_allFalsy u x hfin]
        simp
      simp only [hx]
      simp
    | none =>
      rw [hl] at h
      exact Except.noConfusion h

/-- Witness for C9 at a concrete input: the empty-city payload leaves the
stored city untouched. -/
theorem updateSubmission_falsy_ignored_witness :
    (applyUpdates c3EmptyCityUpdate c3Row).city = c3Row.city :=
  (updateSubmission_falsy_ignored [c3Row] "VRT-1-AAAAAAAA" c3EmptyCityUpdate c3Row).1.2.2.2.2.2.2
    rfl

/-! ### C4, C7: archival (monitor service archiveOldRecords) -/

/-- Result of `archiveOldRecords` (monitor service, part_001:145-228).
`wroteArchive` and `wroteLive` record whether the archive workbook and the
live store file were written; the early return on an empty qualifying set
happens before either write.  (The pre-archive backup of line 150 is a
separate file and is taken in every case.) -/
structure ArchiveResult where
  archivedRows : List Submission
  liveRows : List Submission
  archivedCount : Nat
  wroteArchive : Bool
  wroteLive : Bool
deriving DecidableEq, Repr

/-- The qualifying test of `archiveOldRecords` (part_001:178): the date of
cell 2 — the submission-date column — strictly before the cutoff. -/
def rowQualifies (cutoff : Nat) (r : Submission) : Bool :=
  r.submissionDate < cutoff

/-- `archiveOldRecords` (part_001:145-228), with the cutoff (`new Date()`
minus `monthsOld` months) as an explicit input: rows whose cell-2 date is
strictly before the cutoff are copied to a fresh archive sheet and spliced
out of the live sheet; when none qualify the function returns archivedCount
0 before writing the archive file or rewriting the live file. -/
def archiveOldRecords (rows : List Submission) (cutoff : Nat) : ArchiveResult :=
  let rowsToArchive := rows.filter (rowQualifies cutoff)
  if rowsToArchive.length = 0 then
    ⟨[], rows, 0, false, false⟩
  else
    ⟨rowsToArchive, rows.filter (fun r => !rowQualifies cutoff r),
      rowsToArchive.length, true, true⟩

/-- C4 (amended): archiveOldRecords partitions the live store by the
submission date (cell 2), not the booking date: every archived record has
submissionDate strictly before the cutoff, every surviving live record has
submissionDate at or after the cutoff, and every record with submissionDate
at or after the cutoff is untouched and still live, in its original
order. -/
theorem archiveOldRecords_partition (rows : List Submission) (cutoff : Nat) :
    (archiveOldRecords rows cutoff).archivedRows =
      rows.filter (fun r => rowQualifies cutoff r) ∧
    (archiveOldRecords rows cutoff).liveRows =
      rows.filter (fun r => !rowQualifies cutoff r) ∧
    (∀ r ∈ (archiveOldRecords rows cutoff).archivedRows, r.submissionDate < cutoff) ∧
    (∀ r ∈ (archiveOldRecords rows cutoff).liveRows, cutoff ≤ r.submissionDate) ∧
    (∀ r ∈ rows, cutoff ≤ r.submissionDate →
      r ∈ (archiveOldRecords rows cutoff).liveRows) := by
  have harch : (archiveOldRecords rows cutoff).archivedRows =
      rows.filter (fun r => rowQualifies cutoff r) := by
    simp only [archiveOldRecords]
    split
    · rename_i hz
      rw [List.length_eq_zero] at hz
      rw [hz]
    · rfl
  have hlive : (archiveOldRecords rows cutoff).liveRows =
      rows.filter (fun r => !rowQualifies cutoff r) := by
    simp only [archiveOldRecords]
    split
    · rename_i hz
      rw [List.length_eq_zero] at hz
      have hall : ∀ r ∈ rows, ¬ rowQualifies cutoff r = true := by
        intro r hr hq
        have : r ∈ rows.filter (rowQualifies cutoff) := List.mem_filter.mpr ⟨hr, hq⟩
        rw [hz] at this
        exact absurd this (List.not_mem_nil r)
      symm
      refine List.filter_eq_self.mpr ?_
      intro r hr
      simp [hall r hr]
    · rfl
  refine ⟨harch, hlive, ?_, ?_, ?_⟩
  · intro r hr
    rw [harch] at hr
    have := (List.mem_filter.mp hr).2
    simpa [rowQualifies] using this
  · intro r hr
    rw [hlive] at hr
    have := (List.mem_filter.mp hr).2
    simp only [rowQualifies, Bool.not_eq_eq_eq_not, Bool.not_true, decide_eq_false_iff_not] at this
    omega
  · intro r hr hge
    rw [hlive]
    refine List.mem_filter.mpr ⟨hr, ?_⟩
    simp [rowQualifies]
    omega

/-- A record submitted long ago but booked for a date after the cutoff. -/
def c4Row : Submission :=
  ⟨"VRT-2-BBBBBBBB", 0, some 200, "Name", "up", "wa", "shala", "City", "pending", "ip"⟩

/-- C4 counterexample: with cutoff 100, the row whose submission date 0 is
before the cutoff is archived and removed from the live store although its
booking date 200 is on/after the cutoff — refuting the claim that the
partition is by booking date and that records with booking date at or after
the cutoff stay live. -/
theorem archiveOldRecords_by_bookingDate_refuted :
    (archiveOldRecords [c4Row] 100).archivedRows = [c4Row] ∧
    (archiveOldRecords [c4Row] 100).liveRows = [] ∧
    c4Row.bookingDate = some 200 ∧ 100 ≤ 200 := by
  refine ⟨rfl, rfl, rfl, by omega⟩

/-- Witness for C4 (amended) at a concrete input. -/
theorem archiveOldRecords_partition_witness :
    c4Row.submissionDate < 100 :=
  (archiveOldRecords_partition [c4Row] 100).2.2.1 c4Row (by decide)

/-- C7: when no live row is strictly older than the cutoff,
archiveOldRecords returns a zero-count no-op result: archivedCount is 0, no
archive file is written, the live store file is not rewritten, and the live
rows are returned unchanged. -/
theorem archiveOldRecords_noop (rows : List Submission) (cutoff : Nat)
    (h : ∀ r ∈ rows, ¬ r.submissionDate < cutoff) :
    archiveOldRecords rows cutoff = ⟨[], rows, 0, false, false⟩ := by
  simp only [archiveOldRecords]
  have hfil : rows.filter (rowQualifies cutoff) = [] := by
    refine List.filter_eq_nil_iff.mpr ?_
    intro r hr
    simp [rowQualifies, h r hr]
  rw [hfil]
  rfl

/-- Witness for C7 at a concrete input: a store whose single row is at the
cutoff is left alone with no writes. -/
theorem archiveOldRecords_noop_witness :
    archiveOldRecords [c4Row] 0 = ⟨[], [c4Row], 0, false, false⟩ :=
  archiveOldRecords_noop [c4Row] 0 (by decide)

/-! ### C6, C10: backup retention (backup.service.js) -/

/-- A file in the backup directory: its name (the path inside the
directory) and its modification time. -/
structure BackupFile where
  name : String
  mtime : Nat
deriving DecidableEq, Repr

/-- The backup-file name filter of `cleanOldBackups`
(backup.service.js:62-64): the name starts with `submissions_backup_` and
ends with `.xlsx`. -/
def isBackupFile (f : BackupFile) : Bool :=
  List.isPrefixOf "submissions_backup_".data f.name.data &&
  List.isSuffixOf ".xlsx".data f.name.data

/-- Ascending modification-time order, the comparator
`(a, b) => a.mtime - b.mtime` of backup.service.js:85. -/
def mtimeLe (a b : BackupFile) : Prop := a.mtime ≤ b.mtime

instance : DecidableRel mtimeLe := fun a b => inferInstanceAs (Decidable (a.mtime ≤ b.mtime))

instance : IsTotal BackupFile mtimeLe := ⟨fun a b => Nat.le_total a.mtime b.mtime⟩

instance : IsTrans BackupFile mtimeLe := ⟨fun _ _ _ h1 h2 => Nat.le_trans h1 h2⟩

/-- The backup files sorted by ascending modification time
(backup.service.js:84-85). -/
def backupSorted (dir : List BackupFile) : List BackupFile :=
  List.insertionSort mtimeLe (dir.filter isBackupFile)

/-- `filesToDelete` (backup.service.js:88): the oldest files beyond the
retention cap. -/
def backupsToDelete (dir : List BackupFile) : List BackupFile :=
  (backupSorted dir).take ((dir.filter isBackupFile).length - maxBackups)

/-- `cleanOldBackups` (backup.service.js:59-102) acting on the directory
listing: nothing happens while at most `maxBackups` backup files exist;
otherwise the files of `backupsToDelete` are unlinked.  Non-backup files
are never touched. -/
def cleanOldBackups (dir : List BackupFile) : List BackupFile :=
  if (dir.filter isBackupFile).length ≤ maxBackups then dir
  else dir.filter (fun f => decide (f ∉ backupsToDelete dir))

/-- C6: when the backup directory holds maxBackups + k (k ≥ 1) backup
files (all entries distinct), cleanOldBackups leaves exactly maxBackups
backup files; every deleted entry is a backup file no newer than any
surviving backup file (the survivors are the most recent ones), and
non-backup files are untouched. -/
theorem cleanOldBackups_retention (dir : List BackupFile) (k : Nat) (hk : 0 < k)
    (hnodup : dir.Nodup)
    (hcount : (dir.filter isBackupFile).length = maxBackups + k) :
    ((cleanOldBackups dir).filter isBackupFile).length = maxBackups ∧
    (∀ f ∈ dir, f ∉ cleanOldBackups dir → isBackupFile f = true) ∧
    (∀ f ∈ dir, f ∉ cleanOldBackups dir →
      ∀ g ∈ cleanOldBackups dir, isBackupFile g = true → f.mtime ≤ g.mtime) ∧
    (∀ f ∈ dir, isBackupFile f = false → f ∈ cleanOldBackups dir) := by
  have hgt : ¬ ((dir.filter isBackupFile).length ≤ maxBackups) := by omega
  have hres : cleanOldBackups dir =
      dir.filter (fun f => decide (f ∉ backupsToDelete dir)) := by
    simp only [cleanOldBackups]
    rw [if_neg hgt]
  have hperm : (backupSorted dir).Perm (dir.filter isBackupFile) :=
    List.perm_insertionSort mtimeLe _
  have hBnd : (dir.filter isBackupFile).Nodup := hnodup.filter _
  have hSnd : (backupSorted dir).Nodup := hperm.nodup_iff.mpr hBnd
  have hDnd : (backupsToDelete dir).Nodup :=
    (List.take_sublist _ _).nodup hSnd
  have hDsubS : ∀ x ∈ backupsToDelete dir, x ∈ backupSorted dir :=
    fun x hx => (List.take_sublist _ _).mem hx
  have hDsubB : ∀ x ∈ backupsToDelete dir, x ∈ dir.filter isBackupFile :=
    fun x hx => hperm.mem_iff.mp (hDsubS x hx)
  have hDback : ∀ x ∈ backupsToDelete dir, isBackupFile x = true :=
    fun x hx => (List.mem_filter.mp (hDsubB x hx)).2
  have hDlen : (backupsToDelete dir).length = k := by
    simp only [backupsToDelete]
    rw [List.length_take, hperm.length_eq, hcount]
    omega
  refine ⟨?_, ?_, ?_, ?_⟩
  · rw [hres, List.filter_filter]
    have hco : dir.filter (fun a => isBackupFile a && decide (a ∉ backupsToDelete dir)) =
        (dir.filter isBackupFile).filter (fun a => decide (a ∉ backupsToDelete dir)) := by
      rw [List.filter_filter]
      exact List.filter_congr (fun x _ => Bool.and_comm _ _)
    rw [hco]
    have hsplit :
        ((dir.filter isBackupFile).filter (fun a => decide (a ∉ backupsToDelete dir))).length +
        ((dir.filter isBackupFile).filter
          (fun a => !(decide (a ∉ backupsToDelete dir)))).length =
        (dir.filter isBackupFile).length :=
      Eq.symm (List.length_eq_length_filter_add _)
    have hneg : (dir.filter isBackupFile).filter
        (fun a => !(decide (a ∉ backupsToDelete dir))) =
        (dir.filter isBackupFile).filter (fun a => decide (a ∈ backupsToDelete dir)) := by
      refine List.filter_congr (fun x _ => ?_)
      by_cases hx : x ∈ backupsToDelete dir <;> simp [hx]
    have hmemperm : ((dir.filter isBackupFile).filter
        (fun a => decide (a ∈ backupsToDelete dir))).Perm (backupsToDelete dir) := by
      refine (List.perm_ext_iff_of_nodup (hBnd.filter _) hDnd).mpr ?_
      intro a
      constructor
      · intro ha
        have := (List.mem_filter.mp ha).2
        simpa using this
      · intro ha
        exact List.mem_filter.mpr ⟨hDsubB a ha, by simpa using ha⟩
    rw [hneg, hmemperm.length_eq, hDlen] at hsplit
    omega
  · intro f hf hfdel
    cases hb : isBackupFile f with
    | true => rfl
    | false =>
      exfalso
      apply hfdel
      rw [hres]
      refine List.mem_filter.mpr ⟨hf, ?_⟩
      simp only [decide_eq_true_eq]
      intro hfD
      rw [hDback f hfD] at hb
      exact Bool.noConfusion hb
  · intro f hf hfdel g hg hgb
    have hfD : f ∈ backupsToDelete dir := by
      by_contra hfD
      apply hfdel
      rw [hres]
      exact List.mem_filter.mpr ⟨hf, by simpa using hfD⟩
    rw [hres] at hg
    have hgdir := List.mem_filter.mp hg
    have hgD : g ∉ backupsToDelete dir := by simpa using hgdir.2
    have hgB : g ∈ dir.filter isBackupFile := List.mem_filter.mpr ⟨hgdir.1, hgb⟩
    have hgS : g ∈ backupSorted dir := hperm.mem_iff.mpr hgB
    have hsplitS : backupsToDelete dir ++
        (backupSorted dir).drop ((dir.filter isBackupFile).length - maxBackups) =
        backupSorted dir := List.take_append_drop _ _
    have hpair : List.Pairwise mtimeLe (backupSorted dir) :=
      List.sorted_insertionSort mtimeLe _
    have hpa : List.Pairwise mtimeLe (backupsToDelete dir ++
        (backupSorted dir).drop ((dir.filter isBackupFile).length - maxBackups)) := by
      rw [hsplitS]
      exact hpair
    have hgdrop : g ∈ (backupSorted dir).drop
        ((dir.filter isBackupFile).length - maxBackups) := by
      have : g ∈ backupsToDelete dir ++
          (backupSorted dir).drop ((dir.filter isBackupFile).length - maxBackups) := by
        rw [hsplitS]
        exact hgS
      rcases List.mem_append.mp this with hgD' | hgd
      · exact absurd hgD' hgD
      · exact hgd
    exact (List.pairwise_append.mp hpa).2.2 f hfD g hgdrop
  · intro f hf hb
    rw [hres]
    refine List.mem_filter.mpr ⟨hf, ?_⟩
    simp only [decide_eq_true_eq]
    intro hfD
    rw [hDback f hfD] at hb
    exact Bool.noConfusion hb

/-- A directory of 31 distinct backup files (one above the cap). -/
def c6Dir : List BackupFile :=
  (List.range 31).map (fun i =>
    ⟨String.mk ("submissions_backup_".data ++ decChars i ++ ".xlsx".data), i⟩)

set_option maxRecDepth 4000 in
/-- Witness for C6 at a concrete directory holding 31 backup files. -/
theorem cleanOldBackups_retention_witness :
    ((cleanOldBackups c6Dir).filter isBackupFile).length = maxBackups :=
  (cleanOldBackups_retention c6Dir 1 (by decide) (by decide) (by decide)).1

/-- The try-block body of `cleanOldBackups` as a fallible action: `fsFails`
models a readdir/stat/unlink failure raising inside the try block
(backup.service.js:60-97). -/
def cleanOldBackupsBody (dir : List BackupFile) (fsFails : Bool) :
    Except String (List BackupFile) :=
  if fsFails then .error "EIO" else .ok (cleanOldBackups dir)

/-- `cleanOldBackups` with its catch handler (backup.service.js:99-101):
the error is logged and swallowed, so the caller always gets a directory
back and never an exception. -/
def cleanOldBackupsCaught (dir : List BackupFile) (fsFails : Bool) : List BackupFile :=
  match cleanOldBackupsBody dir fsFails with
  | .ok dir' => dir'
  | .error _ => dir

/-- Outcome of `createBackup` (backup.service.js:18-54): what the caller
receives (the new backup's path, or null when the source file is missing)
and the backup directory afterwards. -/
structure BackupOutcome where
  returned : Option String
  dir : List BackupFile
deriving DecidableEq, Repr

/-- `createBackup` (backup.service.js:18-54): a missing source file
returns null without copying; otherwise the store file is copied to a
fresh timestamped backup name, retention pruning runs with its failures
caught, and the new backup's path is returned. -/
def createBackup (srcExists : Bool) (dir : List BackupFile)
    (backupFileName : String) (mtime : Nat) (pruneFails : Bool) :
    Except String BackupOutcome :=
  if srcExists then
    .ok ⟨some backupFileName,
      cleanOldBackupsCaught (dir ++ [⟨backupFileName, mtime⟩]) pruneFails⟩
  else
    .ok ⟨none, dir⟩

/-- C10: a failure inside the retention pruning is caught and never
propagated: createBackup still succeeds and returns the new backup's path,
the pruning deletions do not happen, and the directory can be left holding
more than maxBackups backup files. -/
theorem createBackup_prune_failure_caught (dir : List BackupFile)
    (nm : String) (mt : Nat) :
    createBackup true dir nm mt true =
      .ok ⟨some nm, dir ++ [(⟨nm, mt⟩ : BackupFile)]⟩ ∧
    (maxBackups ≤ (dir.filter isBackupFile).length →
      isBackupFile (⟨nm, mt⟩ : BackupFile) = true →
      maxBackups < ((dir ++ [(⟨nm, mt⟩ : BackupFile)]).filter isBackupFile).length) := by
  constructor
  · rfl
  · intro hge hb
    rw [List.filter_append, List.length_append]
    simp only [List.filter_cons, hb, if_true, List.filter_nil, List.length_cons,
      List.length_nil]
    omega

set_option maxRecDepth 4000 in
/-- Witness for C10: with 31 backup files already present and pruning
failing, the 32-entry directory stays above the cap. -/
theorem createBackup_prune_failure_caught_witness :
    maxBackups <
      ((c6Dir ++ [(⟨"submissions_backup_x.xlsx", 99⟩ : BackupFile)]).filter isBackupFile).length :=
  (createBackup_prune_failure_caught c6Dir "submissions_backup_x.xlsx" 99).2
    (by decide) (by decide)

/-! ### C8: lock usage of the read-only operations -/

/-- Filesystem and lock events a service call performs on the store
file. -/
inductive FsEvent where
  | lockAcquire
  | lockRelease
  | readStore
  | writeStore
deriving DecidableEq, Repr

/-- `withFileLock` (fileLock.middleware.js:11-38): acquire the advisory
lock on the store path, run the operation, always release. -/
def withFileLockTrace (operation : List FsEvent) : List FsEvent :=
  [FsEvent.lockAcquire] ++ operation ++ [FsEvent.lockRelease]

/-- Events of `getAllSubmissions` (excel.service.js:133-172): its whole
body — one read of the store workbook — runs inside `withFileLock`. -/
def getAllSubmissionsTrace : List FsEvent :=
  withFileLockTrace [FsEvent.readStore]

/-- Events of `searchSubmissions` (excel.service.js:294-308): it obtains
the rows through `getAllSubmissions` and filters in memory. -/
def searchSubmissionsTrace : List FsEvent :=
  getAllSubmissionsTrace

/-- Events of `getStatistics` (excel.service.js:315-338): one
`getAllSubmissions` call; the extra `fs.stat` touches metadata only. -/
def getStatisticsTrace : List FsEvent :=
  getAllSubmissionsTrace

/-- Events of `getBookingCountForDate` (excel.service.js:416-441): it
reads the workbook directly, with no `withFileLock` wrapper. -/
def getBookingCountForDateTrace : List FsEvent :=
  [FsEvent.readStore]

/-- Events of `getBookingCountsByDateRange` (excel.service.js:383-408):
also a direct workbook read without the lock. -/
def getBookingCountsByDateRangeTrace : List FsEvent :=
  [FsEvent.readStore]

/-- C8 counterexample: `getAllSubmissions` — the list operation, also the
read path of search and statistics — does acquire the advisory file lock,
refuting the claim that the read-only list/search/statistics operations
never acquire it. -/
theorem getAllSubmissions_acquires_lock :
    FsEvent.lockAcquire ∈ getAllSubmissionsTrace := by decide

/-- C8 (amended): the list, search and statistics operations all acquire
the advisory file lock around their store read; the direct booking-count
readers (`getBookingCountForDate`, `getBookingCountsByDateRange`) read the
store file without acquiring it, so only those readers can observe the
file during a concurrent mutation. -/
theorem readOperations_lock_usage :
    FsEvent.lockAcquire ∈ getAllSubmissionsTrace ∧
    FsEvent.lockAcquire ∈ searchSubmissionsTrace ∧
    FsEvent.lockAcquire ∈ getStatisticsTrace ∧
    FsEvent.lockAcquire ∉ getBookingCountForDateTrace ∧
    FsEvent.lockAcquire ∉ getBookingCountsByDateRangeTrace := by decide
